import Mathlib

/-!
# GAVStream: the stream descriptor of the video backend

An embedding of `src/godot/gav_stream.h` and `src/godot/gav_stream.cpp`.

Objects live in a `World` and are named by their address; a member function
of `GAVStream` takes the world and the address `this` and gives the world
after the call (and the returned value, when there is one).
-/

set_option autoImplicit false

/-- Address of an object (the value of a pointer such as `this`). -/
abbrev ObjectID := Nat

/-- State of one `GAVStream` object: the member of the class and the two
parts of its bases that the class reads or writes. -/
structure GAVStream where
  /-- The resource path held by `godot::VideoStream`, read with `get_file()`. -/
  file : String
  /-- The signals emitted on this object through `godot::Object::emit_signal`,
  oldest first. -/
  emitted : List String
  /-- The member `bool loop`. -/
  loop : Bool
deriving DecidableEq, Repr

/-- The stream objects, by address. -/
abbrev Streams := ObjectID → GAVStream

/-- A zero-argument callable as stored in `GAVPlayback::callbacks`: the
closures of this program capture only `this`, a stream, so a call is given
by what it does to the stream objects. -/
abbrev Callback := Streams → Streams

/-- A member call received by a playback object. -/
inductive PlaybackCall where
  | load (file : String)
  | set_loop (p_loop : Bool)
  | set_stream_ref (stream : ObjectID)
deriving DecidableEq, Repr

/-- Modelled from the spec: `GAVPlayback` (`gav_playback.h` is not among the
sources). The spec calls it opaque and says that the stream hands it the file
path, the loop flag, a back-reference to itself, and three callback closures;
the playback is therefore represented by what it is handed: the member calls
made on it, in order, and the content of its `callbacks` member. -/
structure GAVPlayback where
  calls : List PlaybackCall
  callbacks : List Callback

/-- Everything the program can touch: the stream objects and the playback
objects allocated so far; a playback is referred to by its position. -/
structure World where
  streams : Streams
  playbacks : List GAVPlayback

/-- Reference to a playback object (`godot::Ref<VideoStreamPlayback>`). -/
abbrev PlaybackRef := Nat

namespace GAVPlayback

/-- The object made by `memnew(GAVPlayback)`: no call received, no callback. -/
def memnew : GAVPlayback := { calls := [], callbacks := [] }

/-- `playback->load(file)`. -/
def load (p : GAVPlayback) (file : String) : GAVPlayback :=
  { p with calls := p.calls ++ [PlaybackCall.load file] }

/-- `playback->set_loop(p_loop)`. -/
def set_loop (p : GAVPlayback) (p_loop : Bool) : GAVPlayback :=
  { p with calls := p.calls ++ [PlaybackCall.set_loop p_loop] }

/-- `playback->set_stream_ref(stream)`. -/
def set_stream_ref (p : GAVPlayback) (stream : ObjectID) : GAVPlayback :=
  { p with calls := p.calls ++ [PlaybackCall.set_stream_ref stream] }

/-- The paths the playback was loaded from, in order. -/
def loaded (p : GAVPlayback) : List String :=
  p.calls.filterMap fun c => match c with
    | PlaybackCall.load f => some f
    | _ => none

/-- The values passed to the playback's `set_loop`, in order. -/
def loop_values (p : GAVPlayback) : List Bool :=
  p.calls.filterMap fun c => match c with
    | PlaybackCall.set_loop b => some b
    | _ => none

/-- The streams passed to the playback's `set_stream_ref`, in order. -/
def stream_refs (p : GAVPlayback) : List ObjectID :=
  p.calls.filterMap fun c => match c with
    | PlaybackCall.set_stream_ref s => some s
    | _ => none

end GAVPlayback

/-- `godot::Object::emit_signal(name)` on the object at `this`: the emission
is recorded on that object. -/
def emit_signal (st : Streams) (this : ObjectID) (name : String) : Streams :=
  Function.update st this { st this with emitted := (st this).emitted ++ [name] }

/-- `godot::VideoStream::get_file()` on the stream at `this`. -/
def get_file (w : World) (this : ObjectID) : String :=
  (w.streams this).file

namespace GAVStream

/-- The state of a stream after construction: the bases are
default-constructed and `loop` takes its default member initializer,
`bool loop = false;`. -/
def construct : GAVStream := { file := "", emitted := [], loop := false }

/-- `void set_loop(bool p_loop) { loop = p_loop; }` -/
def set_loop (w : World) (this : ObjectID) (p_loop : Bool) : World :=
  { w with streams := Function.update w.streams this { w.streams this with loop := p_loop } }

/-- `bool get_loop() const { return loop; }` -/
def get_loop (w : World) (this : ObjectID) : Bool :=
  (w.streams this).loop

/-- `GAVStream::_instantiate_playback()`: the world after the call and the
reference returned. -/
def _instantiate_playback (w : World) (this : ObjectID) : World × PlaybackRef :=
  let playback := GAVPlayback.memnew
  let playback := playback.load (get_file w this)
  let playback := playback.set_loop (w.streams this).loop
  let playback := playback.set_stream_ref this
  let playback := { playback with callbacks := [
      fun st => emit_signal st this "finished",
      fun st => st,
      fun st => emit_signal st this "first_frame" ] }
  ({ w with playbacks := w.playbacks ++ [playback] }, w.playbacks.length)

end GAVStream

/-! ### Registration with the host's class database -/

/-- The values of `godot::Variant::Type` up to the first string type. -/
inductive VariantType where
  | NIL | BOOL | INT | FLOAT | STRING
deriving DecidableEq, Repr

/-- `godot::MethodInfo(name)`: the description of a signal. -/
structure MethodInfo where
  name : String
deriving DecidableEq, Repr

/-- `godot::PropertyInfo(type, name)`. -/
structure PropertyInfo where
  type : VariantType
  name : String
deriving DecidableEq, Repr

/-- `D_METHOD(name, args...)`: a method name with the names of its arguments. -/
structure MethodDefinition where
  name : String
  args : List String
deriving DecidableEq, Repr

/-- The member functions of `GAVStream` whose address is taken. -/
inductive MemberFunction where
  | set_loop
  | get_loop
deriving DecidableEq, Repr

/-- A method as bound in the class database. -/
structure MethodBind where
  definition : MethodDefinition
  method : MemberFunction
deriving DecidableEq, Repr

/-- A property as registered in the class database. -/
structure PropertyEntry where
  info : PropertyInfo
  setter : String
  getter : String
deriving DecidableEq, Repr

/-- What the host's class database holds for the class `GAVStream`, each list
in order of registration. -/
structure ClassDB where
  signals : List MethodInfo
  methods : List MethodBind
  properties : List PropertyEntry
deriving DecidableEq, Repr

/-- The class database before anything is registered for the class. -/
def ClassDB.empty : ClassDB := { signals := [], methods := [], properties := [] }

/-- `ADD_SIGNAL(info)`. -/
def ADD_SIGNAL (db : ClassDB) (info : MethodInfo) : ClassDB :=
  { db with signals := db.signals ++ [info] }

/-- `ClassDB::bind_method(definition, method)`. -/
def ClassDB.bind_method (db : ClassDB) (definition : MethodDefinition)
    (method : MemberFunction) : ClassDB :=
  { db with methods := db.methods ++ [{ definition := definition, method := method }] }

/-- `ADD_PROPERTY(info, setter, getter)`. -/
def ADD_PROPERTY (db : ClassDB) (info : PropertyInfo) (setter getter : String) : ClassDB :=
  { db with properties := db.properties ++ [{ info := info, setter := setter, getter := getter }] }

/-- The member function bound under `name`, when there is one. -/
def ClassDB.get_method (db : ClassDB) (name : String) : Option MemberFunction :=
  (db.methods.find? fun m => m.definition.name == name).map fun m => m.method

/-- `GAVStream::_bind_methods()`. -/
def GAVStream._bind_methods (db : ClassDB) : ClassDB :=
  let db := ADD_SIGNAL db (MethodInfo.mk "finished")
  let db := ADD_SIGNAL db (MethodInfo.mk "first_frame")
  let db := db.bind_method (MethodDefinition.mk "set_loop" ["loop"]) MemberFunction.set_loop
  let db := db.bind_method (MethodDefinition.mk "get_loop" []) MemberFunction.get_loop
  ADD_PROPERTY db (PropertyInfo.mk VariantType.BOOL "loop") "set_loop" "get_loop"

/-! ### Runs of the program -/

/-- A new stream object is constructed at address `o`. -/
def World.new_stream (w : World) (o : ObjectID) : World :=
  { w with streams := Function.update w.streams o GAVStream.construct }

/-- The playback at `r` calls the entry `i` of its `callbacks` member; nothing
happens when there is no such playback or entry. -/
def World.invoke (w : World) (r : PlaybackRef) (i : Nat) : World :=
  match w.playbacks[r]? with
  | some p =>
    match p.callbacks[i]? with
    | some cb => { w with streams := cb w.streams }
    | none => w
  | none => w

/-- The calls of `set_loop` in `bs`, made in order on the stream at `this`. -/
def set_loops (w : World) (this : ObjectID) (bs : List Bool) : World :=
  bs.foldl (fun w b => GAVStream.set_loop w this b) w

/-- An operation on the world: a call of a member function of the stream at
`this`, or the playback at `r` calling entry `i` of its callbacks. -/
inductive Op where
  | set_loop (this : ObjectID) (p_loop : Bool)
  | get_loop (this : ObjectID)
  | _instantiate_playback (this : ObjectID)
  | invoke (r : PlaybackRef) (i : Nat)
deriving DecidableEq, Repr

/-- The world after an operation; `get_loop` is a `const` member function, it
returns a value and leaves the world as it is. -/
def World.step (w : World) : Op → World
  | Op.set_loop this p_loop => GAVStream.set_loop w this p_loop
  | Op.get_loop _ => w
  | Op._instantiate_playback this => (GAVStream._instantiate_playback w this).1
  | Op.invoke r i => w.invoke r i

/-- The world after the operations of `ops`, in order. -/
def World.run (w : World) (ops : List Op) : World :=
  ops.foldl World.step w

/-- Every playback of the world was made by `_instantiate_playback`. -/
def World.wf (w : World) : Prop :=
  ∀ p ∈ w.playbacks, ∃ (w0 : World) (this : ObjectID),
    (GAVStream._instantiate_playback w0 this).1.playbacks[(GAVStream._instantiate_playback w0 this).2]?
      = some p

/-- A world with default-constructed streams and no playback. -/
def World.initial : World := { streams := fun _ => GAVStream.construct, playbacks := [] }

/-! ## Properties -/

open GAVStream

theorem get_loop_set_loop (w : World) (this : ObjectID) (b : Bool) :
    get_loop (set_loop w this b) this = b := by
  simp [get_loop, set_loop]

theorem set_loops_append (w : World) (this : ObjectID) (bs cs : List Bool) :
    set_loops w this (bs ++ cs) = set_loops (set_loops w this bs) this cs := by
  simp [set_loops, List.foldl_append]

/-- C1: `get_loop` after `set_loop(b)` returns `b`, for both values of `b`, and
after any sequence of `set_loop` calls `get_loop` returns the argument of the
last call. -/
theorem C1_get_loop_after_set_loop (w : World) (this : ObjectID) :
    (∀ b : Bool, get_loop (set_loop w this b) this = b)
    ∧ get_loop (set_loop w this true) this = true
    ∧ get_loop (set_loop w this false) this = false
    ∧ ∀ (bs : List Bool) (b : Bool), get_loop (set_loops w this (bs ++ [b])) this = b := by
  refine ⟨get_loop_set_loop w this, get_loop_set_loop w this true,
    get_loop_set_loop w this false, ?_⟩
  intro bs b
  rw [set_loops_append]
  exact get_loop_set_loop _ this b

/-! ### What `_instantiate_playback` makes -/

theorem instantiate_playback_spec (w : World) (this : ObjectID) :
    ∃ p : GAVPlayback,
      (_instantiate_playback w this).1.playbacks[(_instantiate_playback w this).2]? = some p
      ∧ (_instantiate_playback w this).1.playbacks = w.playbacks ++ [p]
      ∧ (_instantiate_playback w this).2 = w.playbacks.length
      ∧ (_instantiate_playback w this).1.streams = w.streams
      ∧ p.calls = [PlaybackCall.load (get_file w this), PlaybackCall.set_loop (get_loop w this),
          PlaybackCall.set_stream_ref this]
      ∧ p.callbacks = [fun st => emit_signal st this "finished", fun st => st,
          fun st => emit_signal st this "first_frame"] := by
  refine ⟨_, ?_, rfl, rfl, rfl, rfl, rfl⟩
  simp [_instantiate_playback]

theorem emit_signal_same (st : Streams) (this : ObjectID) (name : String) :
    emit_signal st this name this = { st this with emitted := (st this).emitted ++ [name] } := by
  simp [emit_signal]

theorem emit_signal_other (st : Streams) (this o : ObjectID) (name : String) (h : o ≠ this) :
    emit_signal st this name o = st o := by
  simp [emit_signal, Function.update_noteq h]

theorem emit_signal_loop (st : Streams) (this o : ObjectID) (name : String) :
    (emit_signal st this name o).loop = (st o).loop := by
  by_cases h : o = this
  · subst h; simp [emit_signal_same]
  · simp [emit_signal_other st this o name h]

/-- C2: the playback made by `_instantiate_playback` received through its
`set_loop` exactly the stream's loop flag at the time of the call, and a
`set_loop` made on a stream afterwards changes the stream's flag but leaves
the playback, and with it the value it received, as it was. -/
theorem C2_playback_loop_is_flag_at_call (w : World) (this : ObjectID) :
    ∃ p : GAVPlayback,
      (_instantiate_playback w this).1.playbacks[(_instantiate_playback w this).2]? = some p
      ∧ p.loop_values = [get_loop w this]
      ∧ ∀ b : Bool,
          (set_loop (_instantiate_playback w this).1 this b).playbacks[(_instantiate_playback w this).2]?
            = some p
          ∧ get_loop (set_loop (_instantiate_playback w this).1 this b) this = b := by
  obtain ⟨p, hp, -, -, -, hcalls, -⟩ := instantiate_playback_spec w this
  refine ⟨p, hp, ?_, ?_⟩
  · simp [GAVPlayback.loop_values, hcalls]
  · intro b
    exact ⟨hp, get_loop_set_loop _ this b⟩

/-- C3: the first of the three callbacks of a playback made by
`_instantiate_playback`, called once in any state of the streams, appends
exactly one emission to the stream it was made by, named "finished"; no
"first_frame" is added, nothing else of that stream changes and no other stream
is touched. -/
theorem C3_finished_callback_emits_finished (w : World) (this : ObjectID) :
    ∃ (p : GAVPlayback) (cb : Callback),
      (_instantiate_playback w this).1.playbacks[(_instantiate_playback w this).2]? = some p
      ∧ p.callbacks.length = 3
      ∧ p.callbacks[0]? = some cb
      ∧ ∀ st : Streams,
          (cb st this).emitted = (st this).emitted ++ ["finished"]
          ∧ (cb st this).emitted.length = (st this).emitted.length + 1
          ∧ (cb st this).emitted.count "finished" = (st this).emitted.count "finished" + 1
          ∧ (cb st this).emitted.count "first_frame" = (st this).emitted.count "first_frame"
          ∧ (cb st this).file = (st this).file
          ∧ (cb st this).loop = (st this).loop
          ∧ ∀ o : ObjectID, o ≠ this → cb st o = st o := by
  obtain ⟨p, hp, -, -, -, -, hcbs⟩ := instantiate_playback_spec w this
  refine ⟨p, fun st => emit_signal st this "finished", hp, by simp [hcbs], by simp [hcbs], ?_⟩
  intro st
  refine ⟨by simp [emit_signal_same], by simp [emit_signal_same], by simp [emit_signal_same],
    by simp [emit_signal_same], by simp [emit_signal_same], by simp [emit_signal_same], ?_⟩
  intro o ho
  exact emit_signal_other st this o "finished" ho

/-- C4: the third of the three callbacks of a playback made by
`_instantiate_playback`, called once in any state of the streams, appends
exactly one emission to the stream it was made by, named "first_frame"; no
"finished" is added, nothing else of that stream changes and no other stream
is touched. -/
theorem C4_first_frame_callback_emits_first_frame (w : World) (this : ObjectID) :
    ∃ (p : GAVPlayback) (cb : Callback),
      (_instantiate_playback w this).1.playbacks[(_instantiate_playback w this).2]? = some p
      ∧ p.callbacks.length = 3
      ∧ p.callbacks[2]? = some cb
      ∧ ∀ st : Streams,
          (cb st this).emitted = (st this).emitted ++ ["first_frame"]
          ∧ (cb st this).emitted.length = (st this).emitted.length + 1
          ∧ (cb st this).emitted.count "first_frame" = (st this).emitted.count "first_frame" + 1
          ∧ (cb st this).emitted.count "finished" = (st this).emitted.count "finished"
          ∧ (cb st this).file = (st this).file
          ∧ (cb st this).loop = (st this).loop
          ∧ ∀ o : ObjectID, o ≠ this → cb st o = st o := by
  obtain ⟨p, hp, -, -, -, -, hcbs⟩ := instantiate_playback_spec w this
  refine ⟨p, fun st => emit_signal st this "first_frame", hp, by simp [hcbs], by simp [hcbs], ?_⟩
  intro st
  refine ⟨by simp [emit_signal_same], by simp [emit_signal_same], by simp [emit_signal_same],
    by simp [emit_signal_same], by simp [emit_signal_same], by simp [emit_signal_same], ?_⟩
  intro o ho
  exact emit_signal_other st this o "first_frame" ho

/-- C5: the middle of the three callbacks of a playback made by
`_instantiate_playback`, called any number of times in any state of the
streams, leaves every stream as it was: no signal is emitted and the state of
the stream is unchanged. -/
theorem C5_loop_callback_does_nothing (w : World) (this : ObjectID) :
    ∃ (p : GAVPlayback) (cb : Callback),
      (_instantiate_playback w this).1.playbacks[(_instantiate_playback w this).2]? = some p
      ∧ p.callbacks.length = 3
      ∧ p.callbacks[1]? = some cb
      ∧ ∀ (n : Nat) (st : Streams),
          cb^[n] st = st
          ∧ (cb^[n] st this).emitted = (st this).emitted := by
  obtain ⟨p, hp, -, -, -, -, hcbs⟩ := instantiate_playback_spec w this
  refine ⟨p, fun st => st, hp, by simp [hcbs], by simp [hcbs], ?_⟩
  intro n st
  have h : (fun st : Streams => st)^[n] st = st := by
    induction n with
    | zero => rfl
    | succ k ih => rw [Function.iterate_succ_apply]; exact ih
  exact ⟨h, by rw [h]⟩

/-- C6: `set_loop(b)` has no failure path, for either value of `b` the flag
becomes `b`; the file path and the emitted signals of the stream are the same
before and after, only the loop flag of that stream is replaced, and the other
streams and the playbacks are untouched. -/
theorem C6_set_loop_changes_only_loop (w : World) (this : ObjectID) (b : Bool) :
    get_loop (set_loop w this b) this = b
    ∧ get_file (set_loop w this b) this = get_file w this
    ∧ ((set_loop w this b).streams this).emitted = (w.streams this).emitted
    ∧ (set_loop w this b).streams this = { w.streams this with loop := b }
    ∧ (∀ o : ObjectID, o ≠ this → (set_loop w this b).streams o = w.streams o)
    ∧ (set_loop w this b).playbacks = w.playbacks := by
  refine ⟨get_loop_set_loop w this b, by simp [get_file, set_loop], by simp [set_loop],
    by simp [set_loop], ?_, rfl⟩
  intro o ho
  simp [set_loop, Function.update_noteq ho]

/-! ### The loop flag along a run -/

theorem wf_of_no_playbacks (w : World) (h : w.playbacks = []) : w.wf := by
  intro p hp
  rw [h] at hp
  cases hp

theorem wf_callbacks (w : World) (hw : w.wf) (p : GAVPlayback) (hp : p ∈ w.playbacks) :
    ∃ this : ObjectID, p.callbacks = [fun st => emit_signal st this "finished", fun st => st,
      fun st => emit_signal st this "first_frame"] := by
  obtain ⟨w0, this, h0⟩ := hw p hp
  obtain ⟨q, hq, -, -, -, -, hcbs⟩ := instantiate_playback_spec w0 this
  rw [h0] at hq
  cases hq
  exact ⟨this, hcbs⟩

theorem installed_callback_loop (this : ObjectID) (cb : Callback)
    (hcb : cb ∈ [fun st => emit_signal st this "finished", fun st => st,
      fun st : Streams => emit_signal st this "first_frame"])
    (st : Streams) (o : ObjectID) : (cb st o).loop = (st o).loop := by
  simp only [List.mem_cons, List.mem_singleton, List.not_mem_nil, or_false] at hcb
  rcases hcb with rfl | rfl | rfl
  · exact emit_signal_loop st this o "finished"
  · rfl
  · exact emit_signal_loop st this o "first_frame"

theorem wf_new_stream (w : World) (hw : w.wf) (o : ObjectID) : (w.new_stream o).wf := hw

theorem wf_step (w : World) (hw : w.wf) (op : Op) : (w.step op).wf := by
  cases op with
  | set_loop this b => exact hw
  | get_loop this => exact hw
  | _instantiate_playback this =>
    intro p hp
    obtain ⟨q, hq, hall, -, -, -, -⟩ := instantiate_playback_spec w this
    simp only [World.step, hall, List.mem_append, List.mem_singleton] at hp
    rcases hp with hp | rfl
    · exact hw p hp
    · exact ⟨w, this, hq⟩
  | invoke r i =>
    intro p hp
    have hpb : (w.invoke r i).playbacks = w.playbacks := by
      unfold World.invoke
      split
      · split <;> rfl
      · rfl
    simp only [World.step, hpb] at hp
    exact hw p hp

theorem wf_run (w : World) (hw : w.wf) (ops : List Op) : (w.run ops).wf := by
  induction ops generalizing w with
  | nil => exact hw
  | cons op ops ih => exact ih (w.step op) (wf_step w hw op)

theorem invoke_get_loop (w : World) (hw : w.wf) (r : PlaybackRef) (i : Nat) (o : ObjectID) :
    get_loop (w.invoke r i) o = get_loop w o := by
  unfold World.invoke
  split
  · rename_i p hp
    split
    · rename_i cb hcb
      obtain ⟨this, hcbs⟩ := wf_callbacks w hw p (List.getElem?_mem hp)
      have hmem := List.getElem?_mem hcb
      rw [hcbs] at hmem
      exact installed_callback_loop this cb hmem w.streams o
    · rfl
  · rfl

theorem step_get_loop (w : World) (hw : w.wf) (op : Op) (o : ObjectID)
    (hop : ∀ b : Bool, op ≠ Op.set_loop o b) : get_loop (w.step op) o = get_loop w o := by
  cases op with
  | set_loop this b =>
    have hne : o ≠ this := by
      intro h
      exact hop b (by rw [h])
    simp [World.step, get_loop, set_loop, Function.update_noteq hne]
  | get_loop this => rfl
  | _instantiate_playback this => rfl
  | invoke r i => exact invoke_get_loop w hw r i o

theorem run_get_loop (w : World) (hw : w.wf) (ops : List Op) (o : ObjectID)
    (hops : ∀ b : Bool, Op.set_loop o b ∉ ops) : get_loop (w.run ops) o = get_loop w o := by
  induction ops generalizing w with
  | nil => rfl
  | cons op ops ih =>
    have h1 : ∀ b : Bool, op ≠ Op.set_loop o b := by
      intro b h
      exact hops b (by rw [h]; exact List.mem_cons_self _ _)
    have h2 : ∀ b : Bool, Op.set_loop o b ∉ ops := by
      intro b h
      exact hops b (List.mem_cons_of_mem _ h)
    have := ih (w.step op) (wf_step w hw op) h2
    simp only [World.run, List.foldl_cons] at this ⊢
    rw [this]
    exact step_get_loop w hw op o h1

/-- C7: the loop flag of a stream is written by `set_loop` on that stream
alone: `get_loop`, `_instantiate_playback` and each of the three callbacks the
latter installs leave the flag of every stream as it was, and so does, in a
world whose playbacks were all made by `_instantiate_playback`, every operation
other than a `set_loop` on that stream. -/
theorem C7_loop_written_only_by_set_loop (w : World) (this o : ObjectID) :
    get_loop (w.step (Op.get_loop this)) o = get_loop w o
    ∧ get_loop (_instantiate_playback w this).1 o = get_loop w o
    ∧ (∃ p : GAVPlayback,
        (_instantiate_playback w this).1.playbacks[(_instantiate_playback w this).2]? = some p
        ∧ p.callbacks.length = 3
        ∧ ∀ cb ∈ p.callbacks, ∀ st : Streams, (cb st o).loop = (st o).loop)
    ∧ (w.wf → ∀ op : Op, (∀ b : Bool, op ≠ Op.set_loop o b) →
        get_loop (w.step op) o = get_loop w o) := by
  refine ⟨rfl, rfl, ?_, fun hw op hop => step_get_loop w hw op o hop⟩
  obtain ⟨p, hp, -, -, -, -, hcbs⟩ := instantiate_playback_spec w this
  refine ⟨p, hp, by simp [hcbs], ?_⟩
  intro cb hcb st
  rw [hcbs] at hcb
  exact installed_callback_loop this cb hcb st o

/-- C8: the playback made by `_instantiate_playback` on a stream was loaded
once, from that stream's own file path, and was given one back-reference, the
stream itself and no other stream; these and the `set_loop` are the only calls
it received. -/
theorem C8_playback_loaded_from_own_file (w : World) (this : ObjectID) :
    ∃ p : GAVPlayback,
      (_instantiate_playback w this).1.playbacks[(_instantiate_playback w this).2]? = some p
      ∧ p.loaded = [get_file w this]
      ∧ p.stream_refs = [this]
      ∧ (∀ o : ObjectID, o ≠ this → o ∉ p.stream_refs)
      ∧ p.calls = [PlaybackCall.load (get_file w this), PlaybackCall.set_loop (get_loop w this),
          PlaybackCall.set_stream_ref this] := by
  obtain ⟨p, hp, -, -, -, hcalls, -⟩ := instantiate_playback_spec w this
  have hrefs : p.stream_refs = [this] := by simp [GAVPlayback.stream_refs, hcalls]
  refine ⟨p, hp, by simp [GAVPlayback.loaded, hcalls], hrefs, ?_, hcalls⟩
  intro o ho hmem
  rw [hrefs] at hmem
  exact ho (List.mem_singleton.mp hmem)

/-- C9: `_bind_methods` adds to the class database exactly the two signals
"finished" and "first_frame", exactly one property, the boolean "loop" with
setter "set_loop" and getter "get_loop", and exactly the two methods those
names are bound to, `set_loop` and `get_loop`; nothing else is registered. -/
theorem C9_bind_methods_registration (db : ClassDB) :
    (_bind_methods db).signals
        = db.signals ++ [MethodInfo.mk "finished", MethodInfo.mk "first_frame"]
    ∧ (_bind_methods db).properties = db.properties
        ++ [PropertyEntry.mk (PropertyInfo.mk VariantType.BOOL "loop") "set_loop" "get_loop"]
    ∧ (_bind_methods db).methods = db.methods
        ++ [MethodBind.mk (MethodDefinition.mk "set_loop" ["loop"]) MemberFunction.set_loop,
            MethodBind.mk (MethodDefinition.mk "get_loop" []) MemberFunction.get_loop]
    ∧ _bind_methods ClassDB.empty =
        { signals := [MethodInfo.mk "finished", MethodInfo.mk "first_frame"],
          methods := [MethodBind.mk (MethodDefinition.mk "set_loop" ["loop"]) MemberFunction.set_loop,
            MethodBind.mk (MethodDefinition.mk "get_loop" []) MemberFunction.get_loop],
          properties :=
            [PropertyEntry.mk (PropertyInfo.mk VariantType.BOOL "loop") "set_loop" "get_loop"] }
    ∧ (_bind_methods ClassDB.empty).get_method "set_loop" = some MemberFunction.set_loop
    ∧ (_bind_methods ClassDB.empty).get_method "get_loop" = some MemberFunction.get_loop := by
  refine ⟨?_, ?_, ?_, ?_, ?_, ?_⟩
  · simp [_bind_methods, ADD_SIGNAL, ADD_PROPERTY, ClassDB.bind_method]
  · simp [_bind_methods, ADD_SIGNAL, ADD_PROPERTY, ClassDB.bind_method]
  · simp [_bind_methods, ADD_SIGNAL, ADD_PROPERTY, ClassDB.bind_method]
  · rfl
  · decide
  · decide

/-- C10: a newly constructed stream has loop flag false, and as long as
`set_loop` is not called on it, whatever else is done, `get_loop` on it returns
false and a playback instantiated from it receives false through its
`set_loop`. -/
theorem C10_new_stream_does_not_loop (w : World) (hw : w.wf) (o : ObjectID) (ops : List Op)
    (hops : ∀ b : Bool, Op.set_loop o b ∉ ops) :
    get_loop (w.new_stream o) o = false
    ∧ get_loop ((w.new_stream o).run ops) o = false
    ∧ ∃ p : GAVPlayback,
        (_instantiate_playback ((w.new_stream o).run ops) o).1.playbacks[
            (_instantiate_playback ((w.new_stream o).run ops) o).2]? = some p
        ∧ p.loop_values = [false] := by
  have h0 : get_loop (w.new_stream o) o = false := by
    simp [get_loop, World.new_stream, GAVStream.construct]
  have h1 : get_loop ((w.new_stream o).run ops) o = false := by
    rw [run_get_loop (w.new_stream o) (wf_new_stream w hw o) ops o hops]
    exact h0
  refine ⟨h0, h1, ?_⟩
  obtain ⟨p, hp, -, -, -, hcalls, -⟩ := instantiate_playback_spec ((w.new_stream o).run ops) o
  refine ⟨p, hp, ?_⟩
  simp [GAVPlayback.loop_values, hcalls, h1]

/-- The statement of C10 at a concrete run: a stream constructed at address 0 of
the initial world, then read, instantiated, all three callbacks of the new
playback called, and `set_loop(true)` called on another stream. -/
theorem C10_new_stream_does_not_loop_witness :
    World.initial.wf
    ∧ (∀ b : Bool, Op.set_loop 0 b ∉ [Op.get_loop 0, Op._instantiate_playback 0, Op.invoke 0 0,
        Op.invoke 0 1, Op.invoke 0 2, Op.set_loop 1 true, Op.get_loop 0])
    ∧ get_loop ((World.initial.new_stream 0).run [Op.get_loop 0, Op._instantiate_playback 0,
        Op.invoke 0 0, Op.invoke 0 1, Op.invoke 0 2, Op.set_loop 1 true, Op.get_loop 0]) 0 = false :=
  ⟨wf_of_no_playbacks World.initial rfl, by decide,
    (C10_new_stream_does_not_loop World.initial (wf_of_no_playbacks World.initial rfl) 0
      [Op.get_loop 0, Op._instantiate_playback 0, Op.invoke 0 0, Op.invoke 0 1, Op.invoke 0 2,
        Op.set_loop 1 true, Op.get_loop 0] (by decide)).2.1⟩
